import Mathlib

/-!
Verification of the schema combinator engine of `typed-object-validator`
(`src/schemas.ts`): a shallow embedding of the JavaScript value model, the
schema tree, and the `validate` / `transform` operations, followed by theorems
checking the claims of the specification about them.
-/

set_option maxHeartbeats 1000000

namespace TOV

/-- JavaScript runtime values, as far as the schema engine inspects them:
`undefined`, `null`, booleans, numbers (the claims under study only need
integral numbers, so numbers are modelled as `Int`), strings, arrays and
plain objects (ordered own-property lists, first occurrence wins on lookup). -/
inductive Value where
  | undefined
  | null
  | bool (b : Bool)
  | num (n : Int)
  | str (s : String)
  | arr (elems : List Value)
  | obj (fields : List (String × Value))
deriving Repr

/-- Model of `ErrorType` from `schemas.ts`: either a leaf error message or an
error map from property key (object field name, or stringified index for
arrays/tuples) to a nested error. -/
inductive Err where
  | leaf (msg : String)
  | emap (entries : List (String × Err))
deriving Repr

/-- Model of `ValidationContext`; `none` models an
absent property, read through `?? true` in the source. -/
structure VCtx where
  abortEarly : Option Bool := none
deriving Repr

/-- Model of `TransformationContext` (`trimStrings?: boolean`). -/
structure TCtx where
  trimStrings : Option Bool := none
deriving Repr

/-- JavaScript truthiness of a modelled value (`undefined`, `null`, `false`,
`0` and `""` are falsy; every object and array is truthy). -/
def truthy : Value → Bool
  | .undefined => false
  | .null => false
  | .bool b => b
  | .num n => n != 0
  | .str s => s != ""
  | .arr _ => true
  | .obj _ => true

/-- Test `typeof v === "object"` for modelled values: true for plain objects,
arrays and `null` (a JavaScript quirk the source relies on). -/
def typeofObject : Value → Bool
  | .null => true
  | .arr _ => true
  | .obj _ => true
  | _ => false

def isArray : Value → Bool
  | .arr _ => true
  | _ => false

/-- JavaScript strict equality (`===`) on the values a `ValueSchema`
literal can be (the `value()` factory restricts literals to
string/number/boolean/null/undefined, where `===` is value equality;
object identity is not modelled, two composite values compare unequal
like two distinct references). -/
def strictEq : Value → Value → Bool
  | .undefined, .undefined => true
  | .null, .null => true
  | .bool a, .bool b => a == b
  | .num a, .num b => a == b
  | .str a, .str b => a == b
  | _, _ => false

/-- First-occurrence lookup in the property list of an object. -/
def objLookup (kvs : List (String × Value)) (k : String) : Option Value :=
  match kvs.find? (fun kv => kv.1 = k) with
  | some kv => some kv.2
  | none => none

/-- Property read `value[key]` on arbitrary values: objects by key, arrays by `length`
or numeric index, anything else gives `undefined` (missing properties read
as `undefined` in JavaScript). -/
def propGet : Value → String → Value
  | .obj kvs, k => (objLookup kvs k).getD .undefined
  | .arr es, k =>
    if k = "length" then .num es.length
    else match k.toNat? with
      | some i => es.getD i .undefined
      | none => .undefined
  | _, _ => .undefined

/-- Property write `target[key] = v` on a property list: overwrite in place if the key is
present, append otherwise (JavaScript property-assignment order). -/
def setKey (l : List (String × α)) (k : String) (v : α) : List (String × α) :=
  if l.any (fun kv => kv.1 = k) then l.map (fun kv => if kv.1 = k then (k, v) else kv)
  else l ++ [(k, v)]

/-- The own enumerable entries `Object.assign` reads from a source value:
the properties of an object, the indexed elements of an array or string, nothing
for primitives, `null` and `undefined`. -/
def ownEntries : Value → List (String × Value)
  | .obj kvs => kvs
  | .arr es => es.enum.map (fun p => (toString p.1, p.2))
  | .str s => s.toList.enum.map (fun p => (toString p.1, .str p.2.toString))
  | _ => []

/-- Property-list content of `Object.assign(target, source)`: each source
entry assigned onto the target in order (source wins on key collision). -/
def objAssign (target source : List (String × Value)) : List (String × Value) :=
  source.foldl (fun acc kv => setKey acc kv.1 kv.2) target

/-- Value-level result of `Object.assign(target, source)` when the target is
a plain object. (Targets that are not plain objects do not occur in the
claims under study; they are returned unchanged.) -/
def valueAssign (target source : Value) : Value :=
  match target with
  | .obj tkvs => .obj (objAssign tkvs (ownEntries source))
  | other => other

/-- Per-instance state of the abstract `Schema` base class: the
optional/nullable flags with their messages and the three one-time
transform hooks. `setPrototype` is stored as a raw value defaulting to
`undefined`, exactly as the untouched field reads in JavaScript. -/
structure Config where
  isOptional : Bool := false
  isNullable : Bool := false
  requiredMessage : String := "Enter a value"
  noNullMessage : String := "Null is not acceptable"
  customTransformer : Option (Value → TCtx → Value) := none
  whenEmptyValue : Option Value := none
  setPrototype : Value := .undefined

/-- State added by `SizeSchema`: the one-time `min`/`max` bounds and their
messages. -/
structure SizeCfg where
  minValue : Option Int := none
  minMessage : String := "Must be longer"
  maxValue : Option Int := none
  maxMessage : String := "Must be shorter"

/-- Model of `StringCasing` from `schemas.ts`. -/
inductive Casing where
  | lower
  | upper
  | capitalize
  | kebabCase
  | kebabLowerCase
deriving DecidableEq, Repr

/-- The schema tree. Each constructor is one concrete schema class of
`schemas.ts`, carrying its base `Config` plus its own fields. Parts whose
behaviour hinges on host-language machinery are abstracted to opaque
functions, as the caller-supplied validator of `CustomSchema` already is
in the source: the regex of `StringSchema` becomes a match predicate, and
for `NumberSchema` and `DateSchema` the checks that both classes run after
their `validateNullable` pre-check (the IEEE-float number/NaN/integer and
size tests, the date-parse test) become a post-nullability check function,
with their type-specific transform steps (rounding; date coercion), which
both run before deferring to the base transform, an opaque kernel
likewise. -/
inductive Schema where
  | string (cfg : Config) (sz : SizeCfg) (regexMatch : Option (String → Bool))
      (regexMessage : String) (trim : Option Bool) (casing : Option Casing)
  | number (cfg : Config) (check : Value → Option Err) (rounding : Value → Value)
  | boolean (cfg : Config)
  | value (cfg : Config) (lit : Value)
  | date (cfg : Config) (check : Value → Option Err) (coerce : Value → Value)
  | object (cfg : Config)
  | mappedObject (cfg : Config) (fields : List (String × Schema))
  | or (cfg : Config) (schemas : List Schema)
  | and (cfg : Config) (schemas : List Schema)
  | tuple (cfg : Config) (schemas : List Schema)
  | array (cfg : Config) (schema : Schema) (sz : SizeCfg)
  | custom (cfg : Config) (validator : Value → VCtx → Option Err)

/-- The base `Config` of a schema node. -/
def Schema.cfg : Schema → Config
  | .string c _ _ _ _ _ => c
  | .number c _ _ => c
  | .boolean c => c
  | .value c _ => c
  | .date c _ _ => c
  | .object c => c
  | .mappedObject c _ => c
  | .or c _ => c
  | .and c _ => c
  | .tuple c _ => c
  | .array c _ _ => c
  | .custom c _ => c

def Schema.isCustomSchema : Schema → Bool
  | .custom _ _ => true
  | _ => false

/-- Model of `Schema.validateNullable`: `some r` models an early `return r` from the
calling `validate` (`r = none` is the JavaScript `undefined`, i.e. valid;
`r = some e` an error); `none` models the `null` sentinel, meaning
"continue with the type-specific checks". -/
def validateNullable (c : Config) : Value → Option (Option Err)
  | .undefined => some (if c.isOptional then none else some (.leaf c.requiredMessage))
  | .null => some (if c.isNullable then none else some (.leaf c.noNullMessage))
  | _ => none

/-- Model of `SizeSchema.validateSize`. -/
def validateSize (sz : SizeCfg) (n : Int) : Option Err :=
  if (match sz.minValue with | some m => decide (n < m) | none => false) then
    some (.leaf sz.minMessage)
  else if (match sz.maxValue with | some m => decide (n > m) | none => false) then
    some (.leaf sz.maxMessage)
  else none

/-- Effective abort-early flag: `context.abortEarly ?? true`. -/
def abortEarlyOf (ctx : VCtx) : Bool :=
  ctx.abortEarly.getD true

mutual

/-- Model of `validate` of each schema class, translated clause by clause from
`schemas.ts`. `none` is the JavaScript `undefined` ("valid"). -/
def validate : Schema → Value → VCtx → Option Err
  | .string c sz rgx rmsg _ _, v, _ =>
    match validateNullable c v with
    | some r => r
    | none =>
      match v with
      | .str s =>
        (match validateSize sz s.length with
        | some e => some e
        | none =>
          match rgx with
          | some p => if p s then none else some (.leaf rmsg)
          | none => none)
      | _ => some (.leaf "Must be string")
  | .number c chk _, v, _ =>
    match validateNullable c v with
    | some r => r
    | none => chk v
  | .date c chk _, v, _ =>
    match validateNullable c v with
    | some r => r
    | none => chk v
  | .boolean c, v, _ =>
    match validateNullable c v with
    | some r => r
    | none =>
      match v with
      | .bool _ => none
      | _ => some (.leaf "Must be boolean")
  | .value c lit, v, _ =>
    match validateNullable c v with
    | some r => r
    | none => if strictEq lit v then none else some (.leaf c.requiredMessage)
  | .object c, v, _ =>
    match validateNullable c v with
    | some r => r
    | none => if typeofObject v then none else some (.leaf "Must be object")
  | .mappedObject c fs, v, ctx =>
    match validateNullable c v with
    | some r => r
    | none =>
      if typeofObject v then
        (let err := mappedGo v ctx fs []
        if err.isEmpty then none else some (.emap err))
      else some (.leaf "Invalid object")
  | .or c ss, v, ctx =>
    match validateNullable c v with
    | some r => r
    | none => orGo v ctx ss none
  | .and c ss, v, ctx =>
    match validateNullable c v with
    | some r => r
    | none => andGo v ctx ss
  | .tuple c ss, v, ctx =>
    match validateNullable c v with
    | some r => r
    | none =>
      match v with
      | .arr es =>
        if es.length > ss.length then some (.leaf "Invalid tuple")
        else
          (let err := tupleGo es ctx ss 0 []
          if err.isEmpty then none else some (.emap err))
      | _ => some (.leaf "Invalid tuple")
  | .array c sc sz, v, ctx =>
    match validateNullable c v with
    | some r => r
    | none =>
      match v with
      | .arr es =>
        (match validateSize sz es.length with
        | some e => some e
        | none =>
          let err := arrayGo sc ctx es 0 []
          if err.isEmpty then none else some (.emap err))
      | _ => some (.leaf "Must be array")
  | .custom _ f, v, ctx => f v ctx
termination_by s _ _ => (sizeOf s, 0)

/-- The field loop of `MappedObjectSchema.validate`: `err[key] = result`
on failure, early return of the accumulated map when abort-early. -/
def mappedGo (v : Value) (ctx : VCtx) :
    List (String × Schema) → List (String × Err) → List (String × Err)
  | [], err => err
  | (k, s) :: rest, err =>
    match validate s (propGet v k) ctx with
    | none => mappedGo v ctx rest err
    | some e =>
      let err2 := setKey err k e
      if abortEarlyOf ctx then err2 else mappedGo v ctx rest err2
termination_by fs _ => (sizeOf fs, 0)

/-- The loop of `OrSchema.validate`: `result` holds the most recent child
error; the first succeeding child returns `undefined` immediately. -/
def orGo (v : Value) (ctx : VCtx) : List Schema → Option Err → Option Err
  | [], result => result
  | s :: rest, _ =>
    match validate s v ctx with
    | none => none
    | some e => orGo v ctx rest (some e)
termination_by ss _ => (sizeOf ss, 0)

/-- The loop of `AndSchema.validate`: the error of the first failing child. -/
def andGo (v : Value) (ctx : VCtx) : List Schema → Option Err
  | [] => none
  | s :: rest =>
    match validate s v ctx with
    | some e => some e
    | none => andGo v ctx rest
termination_by ss => (sizeOf ss, 0)

/-- The position loop of `TupleSchema.validate`: position `i` is checked
against `value[i]` (`undefined` beyond the length of the array). -/
def tupleGo (es : List Value) (ctx : VCtx) :
    List Schema → Nat → List (String × Err) → List (String × Err)
  | [], _, err => err
  | s :: rest, i, err =>
    match validate s (es.getD i .undefined) ctx with
    | none => tupleGo es ctx rest (i + 1) err
    | some e =>
      let err2 := setKey err (toString i) e
      if abortEarlyOf ctx then err2 else tupleGo es ctx rest (i + 1) err2
termination_by ss _ _ => (sizeOf ss, 0)

/-- The element loop of `ArraySchema.validate`. -/
def arrayGo (sc : Schema) (ctx : VCtx) :
    List Value → Nat → List (String × Err) → List (String × Err)
  | [], _, err => err
  | x :: rest, i, err =>
    match validate sc x ctx with
    | none => arrayGo sc ctx rest (i + 1) err
    | some e =>
      let err2 := setKey err (toString i) e
      if abortEarlyOf ctx then err2 else arrayGo sc ctx rest (i + 1) err2
termination_by xs _ _ => (sizeOf sc, 1 + sizeOf xs)

end

/-- The casing switch of `StringSchema.transform`. -/
def applyCasing : Option Casing → String → String
  | some .upper, s => s.toUpper
  | some .lower, s => s.toLower
  | some .capitalize, s => (s.take 1).toUpper ++ (s.drop 1).toLower
  | some .kebabCase, s => String.intercalate "-" (s.splitOn " ")
  | some .kebabLowerCase, s => String.intercalate "-" (s.toLower.splitOn " ")
  | none, s => s

/-- The base `Schema.transform`, value level: custom transformer, then
empty-value substitution (`value ? value : whenEmptyValue.set`), then the
prototype step `Object.assign(this.setPrototype, value)` guarded by the
truthiness of the stored prototype and `typeof value === "object"`.
The mutation `Object.assign` performs on the stored prototype is modelled
separately by `baseTransformMut`. -/
def baseTransform (cfg : Config) (v : Value) (ctx : TCtx) : Value :=
  let v1 := match cfg.customTransformer with
    | some f => f v ctx
    | none => v
  let v2 := match cfg.whenEmptyValue with
    | some w => if truthy v1 then v1 else w
    | none => v1
  if truthy cfg.setPrototype && typeofObject v2 then valueAssign cfg.setPrototype v2 else v2

/-- The base `Schema.transform` with the own state of the schema threaded
through: `Object.assign(this.setPrototype, value)` mutates the object
stored in `this.setPrototype` (and returns that very object), so after the
prototype step the stored prototype of the schema has absorbed the
members of the value. The other two hooks touch no schema state. -/
def baseTransformMut (cfg : Config) (v : Value) (ctx : TCtx) : Value × Config :=
  let v1 := match cfg.customTransformer with
    | some f => f v ctx
    | none => v
  let v2 := match cfg.whenEmptyValue with
    | some w => if truthy v1 then v1 else w
    | none => v1
  if truthy cfg.setPrototype && typeofObject v2 then
    let merged := valueAssign cfg.setPrototype v2
    (merged, { cfg with setPrototype := merged })
  else (v2, cfg)

mutual

/-- Model of `transform` of each schema class, translated clause by clause from
`schemas.ts`; every subclass transform ends by deferring to the base
(`super.transform`). `ArraySchema.transform` assumes an array input (its
behaviour on other values is unspecified per §7); non-array inputs are
passed to the base transform unchanged. -/
def transform : Schema → Value → TCtx → Value
  | .string cfg _ _ _ trim casing, v, ctx =>
    match v with
    | .str s =>
      let s1 := if trim.getD (ctx.trimStrings.getD true) then s.trim else s
      baseTransform cfg (.str (applyCasing casing s1)) ctx
    | _ => baseTransform cfg v ctx
  | .number cfg _ rounding, v, _ =>
    -- `NumberSchema.transform` calls `super.transform(value)` without the
    -- context, so the base transform runs with a fresh default context.
    baseTransform cfg (rounding v) {}
  | .date cfg _ coerce, v, ctx => baseTransform cfg (coerce v) ctx
  | .boolean cfg, v, ctx => baseTransform cfg v ctx
  | .value cfg _, v, ctx => baseTransform cfg v ctx
  | .object cfg, v, ctx => baseTransform cfg v ctx
  | .custom cfg _, v, ctx => baseTransform cfg v ctx
  | .mappedObject cfg fs, v, ctx =>
    if typeofObject v && !(v matches .null) then
      baseTransform cfg (.obj (mappedTGo v ctx fs)) ctx
    else baseTransform cfg v ctx
  | .or cfg ss, v, ctx => baseTransform cfg (orTGo v ctx ss) ctx
  | .and cfg ss, v, ctx => baseTransform cfg (andTGo ctx ss v) ctx
  | .tuple cfg ss, v, ctx =>
    match v with
    | .arr es => baseTransform cfg (.arr (tupleTGo es ctx ss 0)) ctx
    | _ => baseTransform cfg v ctx
  | .array cfg sc _, v, ctx =>
    match v with
    | .arr es => baseTransform cfg (.arr (arrayTGo sc ctx es)) ctx
    | _ => baseTransform cfg v ctx
termination_by s _ _ => (sizeOf s, 0)

/-- The field loop of `MappedObjectSchema.transform`: a fresh object gets
exactly the declared fields, each the child transform of `value[key]`. -/
def mappedTGo (v : Value) (ctx : TCtx) : List (String × Schema) → List (String × Value)
  | [] => []
  | (k, s) :: rest => (k, transform s (propGet v k) ctx) :: mappedTGo v ctx rest
termination_by fs => (sizeOf fs, 0)

/-- The loop of `OrSchema.transform`: the first child whose `validate`
(with a fresh `{}` context) succeeds transforms the value; if none
matches, the value is left as is. -/
def orTGo (v : Value) (ctx : TCtx) : List Schema → Value
  | [] => v
  | s :: rest =>
    match validate s v {} with
    | none => transform s v ctx
    | some _ => orTGo v ctx rest
termination_by ss => (sizeOf ss, 0)

/-- The loop of `AndSchema.transform`: child transforms threaded in
declared order. -/
def andTGo (ctx : TCtx) : List Schema → Value → Value
  | [], v => v
  | s :: rest, v => andTGo ctx rest (transform s v ctx)
termination_by ss _ => (sizeOf ss, 0)

/-- The position loop of `TupleSchema.transform`. -/
def tupleTGo (es : List Value) (ctx : TCtx) : List Schema → Nat → List Value
  | [], _ => []
  | s :: rest, i => transform s (es.getD i .undefined) ctx :: tupleTGo es ctx rest (i + 1)
termination_by ss _ => (sizeOf ss, 0)

/-- The element loop of `ArraySchema.transform`. -/
def arrayTGo (sc : Schema) (ctx : TCtx) : List Value → List Value
  | [] => []
  | x :: rest => transform sc x ctx :: arrayTGo sc ctx rest
termination_by xs => (sizeOf sc, 1 + sizeOf xs)

end

/-- Model of `NumberRounding` from `schemas.ts`. -/
inductive Rounding where
  | ceil
  | round
  | floor
deriving DecidableEq, Repr

/-- The one-time configurable state of a schema instance, the union of the
fields the builder methods of `Schema`, `SizeSchema`, `StringSchema` and
`NumberSchema` guard. Option fields start absent (`undefined`);
`setPrototype` starts as the raw `undefined` value, exactly as in the
source, because its duplicate guard tests JavaScript truthiness of the
stored value rather than presence. -/
structure BuilderState where
  isOptional : Bool := false
  isNullable : Bool := false
  minValue : Option Int := none
  minMessage : String := "Must be longer"
  maxValue : Option Int := none
  maxMessage : String := "Must be shorter"
  regexMatch : Option String := none
  regexMessage : String := "Does not match regex"
  trim : Option Bool := none
  casing : Option Casing := none
  allowFloat : Option Bool := none
  intMessage : String := "Must be integer"
  rounding : Option Rounding := none
  customTransformer : Option (Value → TCtx → Value) := none
  whenEmptyValue : Option Value := none
  setPrototype : Value := .undefined

/-- Model of `if (message) this.someMessage = message` — an optional message
argument replaces the stored one only when truthy (non-empty). -/
def updMsg (old : String) : Option String → String
  | some m => if m = "" then old else m
  | none => old

/-- Model of `Schema.optional()`. A thrown `Error` is modelled as `Except.error`,
raised by the builder call itself, distinct from any validation result. -/
def optional (s : BuilderState) : Except String BuilderState :=
  if s.isOptional then .error "Duplicate optional() call"
  else .ok { s with isOptional := true }

/-- Model of `Schema.nullable()`. -/
def nullable (s : BuilderState) : Except String BuilderState :=
  if s.isNullable then .error "Duplicate nullable() call"
  else .ok { s with isNullable := true }

/-- Model of `SizeSchema.min(min, message?)`: guard is `minValue !== undefined`. -/
def min (m : Int) (message : Option String) (s : BuilderState) : Except String BuilderState :=
  if s.minValue.isSome then .error "Duplicate min() call"
  else .ok { s with minValue := some m, minMessage := updMsg s.minMessage message }

/-- Model of `SizeSchema.max(max, message?)`: guard is `maxValue !== undefined`. -/
def max (m : Int) (message : Option String) (s : BuilderState) : Except String BuilderState :=
  if s.maxValue.isSome then .error "Duplicate max() call"
  else .ok { s with maxValue := some m, maxMessage := updMsg s.maxMessage message }

/-- Model of `StringSchema.regex(regex, message?)`: the guard tests truthiness of the
stored `RegExp`, and a constructed `RegExp` object is always truthy, so the
guard is presence of the pattern. -/
def regex (pattern : String) (message : Option String) (s : BuilderState) :
    Except String BuilderState :=
  if s.regexMatch.isSome then .error "Duplicate regex() call"
  else .ok { s with regexMatch := some pattern, regexMessage := updMsg s.regexMessage message }

/-- Model of `NumberSchema.float(allow?, message?)`: guard is `allowFloat !== undefined`. -/
def float (allow : Bool) (message : Option String) (s : BuilderState) :
    Except String BuilderState :=
  if s.allowFloat.isSome then .error "Duplicate float() call"
  else .ok { s with allowFloat := some allow, intMessage := updMsg s.intMessage message }

/-- Model of `StringSchema.doTrim(trim?)`: guard is `trim !== undefined`. -/
def doTrim (t : Bool) (s : BuilderState) : Except String BuilderState :=
  if s.trim.isSome then .error "Duplicate doTrim() call"
  else .ok { s with trim := some t }

/-- Model of `StringSchema.doCase(casing)`: the guard tests truthiness of the stored
casing, and every `StringCasing` is a non-empty string, hence truthy. -/
def doCase (c : Casing) (s : BuilderState) : Except String BuilderState :=
  if s.casing.isSome then .error "Duplicate doTransformCase() call"
  else .ok { s with casing := some c }

/-- Model of `NumberSchema.doRound(rounding?)`: the guard tests truthiness of the
stored rounding, and every `NumberRounding` is a non-empty string. -/
def doRound (r : Rounding) (s : BuilderState) : Except String BuilderState :=
  if s.rounding.isSome then .error "Duplicate doRound() call"
  else .ok { s with rounding := some r }

/-- Model of `Schema.doCustom(transformer)`: the guard tests truthiness of the stored
transformer, and a function is always truthy. -/
def doCustom (f : Value → TCtx → Value) (s : BuilderState) : Except String BuilderState :=
  if s.customTransformer.isSome then .error "Duplicate doCustom() call"
  else .ok { s with customTransformer := some f }

/-- Model of `Schema.doSetWhenEmpty(valueToSet)`: the stored value is wrapped in an
object `{ set: valueToSet }`, which is always truthy, so the guard is
presence of the wrapper. -/
def doSetWhenEmpty (valueToSet : Value) (s : BuilderState) : Except String BuilderState :=
  if s.whenEmptyValue.isSome then .error "Duplicate doSetWhenEmpty() call"
  else .ok { s with whenEmptyValue := some valueToSet }

/-- Model of `Schema.doSetPrototype(prototype)`: the guard is JavaScript truthiness
of the stored prototype value itself — not presence. -/
def doSetPrototype (prototype : Value) (s : BuilderState) : Except String BuilderState :=
  if truthy s.setPrototype then .error "Duplicate doPrototype() call"
  else .ok { s with setPrototype := prototype }

/-- All failing declared fields of a fixed-field object validation, in
declaration order, with the error each child produced. -/
def fieldFailures (v : Value) (ctx : VCtx) (fs : List (String × Schema)) :
    List (String × Err) :=
  fs.filterMap (fun ks => (validate ks.2 (propGet v ks.1) ctx).map (fun e => (ks.1, e)))

/-- First hook of the base transform chain: the registered custom
transformer, if any. -/
def customStep (h : Option (Value → TCtx → Value)) (v : Value) (ctx : TCtx) : Value :=
  match h with
  | some f => f v ctx
  | none => v

/-- Second hook of the base transform chain: substitute the configured
value when the current value is falsy. -/
def emptyStep (w : Option Value) (v : Value) : Value :=
  match w with
  | some subst => if truthy v then v else subst
  | none => v

/-- Third hook of the base transform chain as the code performs it:
`Object.assign(this.setPrototype, value)` — the members of the value are
assigned onto the stored prototype object, which becomes the result. -/
def protoStep (p : Value) (v : Value) : Value :=
  if truthy p && typeofObject v then valueAssign p v else v

/-- Modelled from the spec: the prototype hook as the specification words
it — "if a prototype is registered and the value is an object, merging the
prototype members onto the value" — i.e. the members of the prototype are
assigned onto the value. Kept for comparison with `baseTransform`. -/
def claimedBaseTransform (cfg : Config) (v : Value) (ctx : TCtx) : Value :=
  let v1 := customStep cfg.customTransformer v ctx
  let v2 := emptyStep cfg.whenEmptyValue v1
  if !(cfg.setPrototype matches .undefined) && typeofObject v2 then valueAssign v2 cfg.setPrototype
  else v2

/-- A custom schema whose validator accepts everything. -/
def anyCustom : Schema :=
  .custom {} (fun _ _ => none)

/-- A config whose registered prototype has an `x` member, colliding with
the own `x` of the transformed value. -/
def protoCollideCfg : Config :=
  { setPrototype := .obj [("x", .str "p")] }

/-- A config with a freshly registered empty-object prototype. -/
def protoCfg : Config :=
  { setPrototype := .obj [] }

/-- A fresh string schema (all configuration at its defaults). -/
def stringNode : Schema :=
  .string {} {} none "Does not match regex" none none

/-- A fresh boolean schema. -/
def booleanNode : Schema :=
  .boolean {}

/-- A custom transformer that ignores its argument and returns `{z: 1}`. -/
def addZTransformer : Value → TCtx → Value :=
  fun _ _ => .obj [("z", .num 1)]

/-- A config with `addZTransformer` registered via `doCustom`. -/
def hookedCfg : Config :=
  { customTransformer := some addZTransformer }

/-! ## Theorems -/

/-- C10: the open Object schema accepts any array: after the nullability
pre-check (which an array always passes), the only structural check is the
`typeof`-object test, which arrays satisfy, so `validate` returns
`undefined` for every array. -/
theorem open_object_accepts_arrays (cfg : Config) (es : List Value) (ctx : VCtx) :
    validate (.object cfg) (.arr es) ctx = none := by
  simp [validate, validateNullable, typeofObject]

/-- C5 (counterexample): on a key collision the prototype step of the code
keeps the member of the value (`Object.assign(this.setPrototype, value)`
lets the value overwrite the prototype), while the claimed "merging the
prototype members onto the value" would keep the member of the prototype. -/
theorem base_transform_proto_direction_cex :
    baseTransform protoCollideCfg (.obj [("x", .str "v")]) {} = .obj [("x", .str "v")]
    ∧ claimedBaseTransform protoCollideCfg (.obj [("x", .str "v")]) {} = .obj [("x", .str "p")]
    ∧ Value.obj [("x", .str "v")] ≠ Value.obj [("x", .str "p")] :=
  ⟨rfl, rfl, by simp⟩

/-- C5 (amended): the base transform applies, in this exact order, the
custom transformer if registered, then empty-value substitution when the
current value is falsy, then — if the stored prototype is truthy and the
current value is an object — the prototype step, which assigns the members
of the value onto the registered prototype object (the value wins on key
collisions); the result of this chain is the returned value. -/
theorem base_transform_hook_order (cfg : Config) (v : Value) (ctx : TCtx) :
    baseTransform cfg v ctx
      = protoStep cfg.setPrototype (emptyStep cfg.whenEmptyValue (customStep cfg.customTransformer v ctx)) :=
  rfl

/-- C6: `transform` is not mutation-free: the prototype step merges the
transformed value into the stored prototype object of the schema itself, so
one `transform` call changes the schema state and a later call on an empty
object returns the members leaked from the first call. -/
theorem transform_mutates_schema_state :
    (baseTransformMut protoCfg (.obj [("a", .num 1)]) {}).2.setPrototype ≠ protoCfg.setPrototype
    ∧ (baseTransformMut ((baseTransformMut protoCfg (.obj [("a", .num 1)]) {}).2) (.obj []) {}).1
        = .obj [("a", .num 1)] := by
  constructor
  · show Value.obj [("a", .num 1)] ≠ Value.obj []
    simp
  · rfl

/-- C4 (counterexample): a Custom schema delegates entirely to its
validator and skips the nullability pre-check, so a non-optional custom
schema with an accept-all validator returns `undefined` on `undefined`
input instead of the configured required-message. -/
theorem custom_validate_undefined_cex :
    validate anyCustom .undefined {} = none
    ∧ anyCustom.cfg.isOptional = false
    ∧ (none : Option Err) ≠ some (.leaf anyCustom.cfg.requiredMessage) := by
  refine ⟨?_, rfl, by simp⟩
  simp [validate, anyCustom]

/-- C4 (amended): for every schema variant except Custom,
`validate undefined` is the configured required-message unless `optional()`
was called, in which case it is `undefined`. -/
theorem validate_undefined_required (s : Schema) (ctx : VCtx)
    (h : s.isCustomSchema = false) :
    validate s .undefined ctx
      = if s.cfg.isOptional then none else some (.leaf s.cfg.requiredMessage) := by
  cases s <;> simp_all [validate, validateNullable, Schema.isCustomSchema, Schema.cfg]

/-- Witness for the amended C4 theorem: a fresh boolean schema at `undefined`
yields its default required-message. -/
theorem validate_undefined_required_witness :
    validate booleanNode .undefined {} = some (.leaf "Enter a value") := by
  have h := validate_undefined_required booleanNode {} rfl
  simpa [booleanNode, Schema.cfg] using h

theorem orGo_exists_none (v : Value) (ctx : VCtx) :
    ∀ (ss : List Schema) (acc : Option Err),
      (∃ s ∈ ss, validate s v ctx = none) → orGo v ctx ss acc = none := by
  intro ss
  induction ss with
  | nil => intro acc h; simp at h
  | cons s rest ih =>
    intro acc h
    cases hv : validate s v ctx with
    | none => simp [orGo, hv]
    | some e =>
      rcases h with ⟨t, ht, hval⟩
      rcases List.mem_cons.mp ht with rfl | ht2
      · exact absurd hval (by simp [hv])
      · simp only [orGo, hv]
        exact ih (some e) ⟨t, ht2, hval⟩

theorem orGo_all_fail (v : Value) (ctx : VCtx) :
    ∀ (ss : List Schema) (acc : Option Err) (slast : Schema),
      (∀ s ∈ ss, validate s v ctx ≠ none) → ss.getLast? = some slast →
      orGo v ctx ss acc = validate slast v ctx := by
  intro ss
  induction ss with
  | nil => intro acc slast _ hlast; simp at hlast
  | cons s rest ih =>
    intro acc slast hall hlast
    cases hv : validate s v ctx with
    | none => exact absurd hv (hall s (by simp))
    | some e =>
      cases rest with
      | nil =>
        simp at hlast
        subst hlast
        simp [orGo, hv]
      | cons r rest2 =>
        rw [List.getLast?_cons_cons] at hlast
        simp only [orGo, hv]
        have hrec := ih (some e) slast (fun t ht => hall t (List.mem_cons_of_mem s ht)) hlast
        simp only [orGo] at hrec
        exact hrec

/-- C1: the Or composite first applies the nullability pre-check; past it,
the children are tried in declared order — if some child validates
successfully the result is `undefined`, and if every child fails the
result is the error of the last child in the list. -/
theorem or_validate_spec (cfg : Config) (ss : List Schema) (v : Value) (ctx : VCtx) :
    (∀ r, validateNullable cfg v = some r → validate (.or cfg ss) v ctx = r)
    ∧ (validateNullable cfg v = none →
        ((∃ s ∈ ss, validate s v ctx = none) → validate (.or cfg ss) v ctx = none)
        ∧ (∀ slast, (∀ s ∈ ss, validate s v ctx ≠ none) → ss.getLast? = some slast →
            validate (.or cfg ss) v ctx = validate slast v ctx)) := by
  refine ⟨fun r hr => by simp [validate, hr], fun hn => ⟨fun hex => ?_, fun slast hall hlast => ?_⟩⟩
  · simp only [validate, hn]
    exact orGo_exists_none v ctx ss none hex
  · simp only [validate, hn]
    exact orGo_all_fail v ctx ss none slast hall hlast

/-- Witness for C1: both children of `or([string, boolean])` reject a
number, and the reported error is "Must be boolean" from the second
(last-tried) child, not "Must be string" from the first. -/
theorem or_validate_spec_witness :
    validate (.or {} [stringNode, booleanNode]) (.num 3) {} = some (.leaf "Must be boolean") := by
  have hall : ∀ s ∈ [stringNode, booleanNode], validate s (.num 3) ({} : VCtx) ≠ none := by
    intro s hs
    rcases List.mem_cons.mp hs with rfl | hs2
    · simp [validate, stringNode, validateNullable]
    · rcases List.mem_cons.mp hs2 with rfl | hs3
      · simp [validate, booleanNode, validateNullable]
      · simp at hs3
  have h := ((or_validate_spec {} [stringNode, booleanNode] (.num 3) {}).2 rfl).2
    booleanNode hall rfl
  rw [h]
  simp [validate, booleanNode, validateNullable]

theorem getD_append_replicate_undef (es : List Value) (k i : Nat) :
    (es ++ List.replicate k Value.undefined).getD i .undefined = es.getD i .undefined := by
  rcases Nat.lt_or_ge i es.length with h | h
  · rw [List.getD_eq_getElem?_getD, List.getD_eq_getElem?_getD, List.getElem?_append_left h]
  · rw [List.getD_eq_getElem?_getD, List.getD_eq_getElem?_getD,
      List.getElem?_append_right h, List.getElem?_replicate,
      List.getElem?_eq_none h]
    split <;> rfl

theorem tupleGo_pad (ctx : VCtx) (es : List Value) (k : Nat) :
    ∀ (ss : List Schema) (i : Nat) (err : List (String × Err)),
      tupleGo (es ++ List.replicate k Value.undefined) ctx ss i err = tupleGo es ctx ss i err := by
  intro ss
  induction ss with
  | nil => intro i err; simp [tupleGo]
  | cons s rest ih =>
    intro i err
    simp only [tupleGo, getD_append_replicate_undef]
    cases hv : validate s (es.getD i .undefined) ctx <;> simp [hv, ih]

theorem validate_tuple_arr (cfg : Config) (ss : List Schema) (es : List Value) (ctx : VCtx) :
    validate (.tuple cfg ss) (.arr es) ctx
      = if es.length > ss.length then some (.leaf "Invalid tuple")
        else
          (let err := tupleGo es ctx ss 0 []
          if err.isEmpty then none else some (.emap err)) := by
  simp [validate, validateNullable]

/-- C7: Tuple validation applies the nullability pre-check first; past it,
the tuple error is produced when the value is not an array or the array is
longer than the schema list; an array no longer than the schema list is
never rejected for its length — it validates exactly like the same array
padded with `undefined` up to the length of the schema list, i.e. each declared
position is checked against the element at its index, `undefined` when
missing. -/
theorem tuple_validate_spec (cfg : Config) (ss : List Schema) (ctx : VCtx) :
    (∀ v r, validateNullable cfg v = some r → validate (.tuple cfg ss) v ctx = r)
    ∧ (∀ v, validateNullable cfg v = none → isArray v = false →
        validate (.tuple cfg ss) v ctx = some (.leaf "Invalid tuple"))
    ∧ (∀ es, es.length > ss.length →
        validate (.tuple cfg ss) (.arr es) ctx = some (.leaf "Invalid tuple"))
    ∧ (∀ es, es.length ≤ ss.length →
        validate (.tuple cfg ss) (.arr es) ctx
          = validate (.tuple cfg ss) (.arr (es ++ List.replicate (ss.length - es.length) Value.undefined)) ctx) := by
  refine ⟨fun v r hr => ?_, fun v hn hna => ?_, fun es h => ?_, fun es h => ?_⟩
  · cases v <;> simp_all [validate, validateNullable]
  · cases v <;> simp_all [validate, validateNullable, isArray]
  · rw [validate_tuple_arr]
    simp [h]
  · rw [validate_tuple_arr, validate_tuple_arr, tupleGo_pad]
    have hlen : (es ++ List.replicate (ss.length - es.length) Value.undefined).length = ss.length := by
      simp
      omega
    rw [hlen]
    simp [Nat.not_lt.mpr h]

/-- Witness for C7: `["x"]` is rejected as "Invalid tuple" when it is not
an array, and the one-element array `["a"]` validates against a
two-position tuple schema exactly like `["a", undefined]`. -/
theorem tuple_validate_spec_witness :
    validate (.tuple {} [stringNode]) (.str "x") {} = some (.leaf "Invalid tuple")
    ∧ validate (.tuple {} [stringNode, booleanNode]) (.arr [.str "a"]) {}
        = validate (.tuple {} [stringNode, booleanNode]) (.arr [.str "a", .undefined]) {} := by
  constructor
  · exact (tuple_validate_spec {} [stringNode] {}).2.1 (.str "x") rfl rfl
  · have h := (tuple_validate_spec {} [stringNode, booleanNode] {}).2.2.2 [.str "a"] (by decide)
    simpa using h

theorem baseTransform_no_hooks (cfg : Config) (v : Value) (ctx : TCtx)
    (h1 : cfg.customTransformer = none) (h2 : cfg.whenEmptyValue = none)
    (h3 : cfg.setPrototype = .undefined) :
    baseTransform cfg v ctx = v := by
  simp [baseTransform, h1, h2, h3, truthy]

theorem mappedTGo_eq_map (v : Value) (ctx : TCtx) :
    ∀ fs : List (String × Schema),
      mappedTGo v ctx fs = fs.map (fun ks => (ks.1, transform ks.2 (propGet v ks.1) ctx)) := by
  intro fs
  induction fs with
  | nil => simp [mappedTGo]
  | cons ks rest ih =>
    obtain ⟨k, s⟩ := ks
    simp [mappedTGo, ih]

/-- C2 (counterexample): `MappedObjectSchema.transform` ends by deferring
to the base transform (`super.transform`), whose hooks see the freshly
built object; an object schema with a registered custom transformer can
therefore produce an output carrying the key of an undeclared input field,
so the exact-fields property does not hold for every fixed-field Object
schema. Here the schema declares only `a`, the input is
`{a: true, z: 5}`, and the output is `{z: 1}`. -/
theorem mapped_transform_hook_cex :
    transform (.mappedObject hookedCfg [("a", booleanNode)])
        (.obj [("a", .bool true), ("z", .num 5)]) {}
      = .obj [("z", .num 1)]
    ∧ "z" ∉ ([("a", booleanNode)] : List (String × Schema)).map Prod.fst := by
  constructor
  · simp [transform, hookedCfg, addZTransformer, booleanNode, baseTransform, mappedTGo,
      propGet, objLookup, typeofObject, truthy, List.find?]
  · simp

/-- C2 (amended): on any input object, the transform of a fixed-field Object schema
(with no base transform hooks registered) is an object holding exactly the
declared fields in declaration order, each the recursive transform of the
input value for that key (`undefined` when the key is absent); any input
key not declared in the schema is absent from the output. -/
theorem mapped_transform_exact_fields (cfg : Config) (fs : List (String × Schema))
    (kvs : List (String × Value)) (ctx : TCtx)
    (h1 : cfg.customTransformer = none) (h2 : cfg.whenEmptyValue = none)
    (h3 : cfg.setPrototype = .undefined) (_hnd : (fs.map Prod.fst).Nodup) :
    transform (.mappedObject cfg fs) (.obj kvs) ctx
      = .obj (fs.map fun ks => (ks.1, transform ks.2 ((objLookup kvs ks.1).getD .undefined) ctx))
    ∧ ∀ k, k ∉ fs.map Prod.fst →
        k ∉ (fs.map fun ks => (ks.1, transform ks.2 ((objLookup kvs ks.1).getD .undefined) ctx)).map Prod.fst := by
  constructor
  · rw [show transform (.mappedObject cfg fs) (.obj kvs) ctx
        = baseTransform cfg (.obj (mappedTGo (.obj kvs) ctx fs)) ctx from by
      simp [transform, typeofObject]]
    rw [baseTransform_no_hooks cfg _ ctx h1 h2 h3, mappedTGo_eq_map]
    simp [propGet]
  · intro k hk
    simpa using hk

/-- Witness for C2: a two-field schema transforms `{a, b, unknownKey}` to
an object with only `a` and `b`. -/
theorem mapped_transform_exact_fields_witness :
    transform (.mappedObject {} [("a", stringNode), ("b", booleanNode)])
        (.obj [("a", .bool true), ("b", .bool false), ("unknownKey", .num 3)]) {}
      = .obj [("a", .bool true), ("b", .bool false)] := by
  have h := (mapped_transform_exact_fields {} [("a", stringNode), ("b", booleanNode)]
    [("a", .bool true), ("b", .bool false), ("unknownKey", .num 3)] {}
    rfl rfl rfl (by decide)).1
  rw [h]
  simp [transform, stringNode, booleanNode, baseTransform, objLookup, List.find?, truthy]

/-- C9: for an And composite with no transform hooks on the composite node
itself, the transform of `and([A, B])` is the transform of child `B`
applied to the transform of child `A` of the value — children in declared
order, each seeing the output of the previous child. -/
theorem and_transform_composes (cfg : Config) (A B : Schema) (v : Value) (ctx : TCtx)
    (h1 : cfg.customTransformer = none) (h2 : cfg.whenEmptyValue = none)
    (h3 : cfg.setPrototype = .undefined) :
    transform (.and cfg [A, B]) v ctx = transform B (transform A v ctx) ctx := by
  rw [show transform (.and cfg [A, B]) v ctx
      = baseTransform cfg (andTGo ctx [A, B] v) ctx from by simp [transform]]
  rw [baseTransform_no_hooks cfg _ ctx h1 h2 h3]
  simp [andTGo]

/-- Witness for C9: a fresh `and([boolean, custom])` composite transforms
the number 7 as the composition of its child transforms (which both
pass it through). -/
theorem and_transform_composes_witness :
    transform (.and {} [booleanNode, anyCustom]) (.num 7) {}
      = transform anyCustom (transform booleanNode (.num 7) {}) {}
    ∧ transform (.and {} [booleanNode, anyCustom]) (.num 7) {} = .num 7 := by
  have h := and_transform_composes {} booleanNode anyCustom (.num 7) {} rfl rfl rfl
  refine ⟨h, ?_⟩
  rw [h]
  simp [transform, anyCustom, booleanNode, baseTransform, truthy]

theorem setKey_not_mem (l : List (String × α)) (k : String) (v : α)
    (h : k ∉ l.map Prod.fst) : setKey l k v = l ++ [(k, v)] := by
  have hany : (l.any (fun kv => kv.1 = k)) = false := by
    rw [List.any_eq_false]
    intro kv hkv
    simp only [decide_eq_true_eq]
    intro hek
    exact h (hek ▸ List.mem_map_of_mem Prod.fst hkv)
  simp [setKey, hany]

theorem validate_mapped_obj (cfg : Config) (fs : List (String × Schema))
    (kvs : List (String × Value)) (ctx : VCtx) :
    validate (.mappedObject cfg fs) (.obj kvs) ctx
      = (let err := mappedGo (.obj kvs) ctx fs []
        if err.isEmpty then none else some (.emap err)) := by
  simp [validate, validateNullable, typeofObject]

theorem mappedGo_collect (v : Value) (ctx : VCtx) (hA : abortEarlyOf ctx = false) :
    ∀ (fs : List (String × Schema)) (acc : List (String × Err)),
      (fs.map Prod.fst).Nodup → (∀ ks ∈ fs, ks.1 ∉ acc.map Prod.fst) →
      mappedGo v ctx fs acc = acc ++ fieldFailures v ctx fs := by
  intro fs
  induction fs with
  | nil => intro acc _ _; simp [mappedGo, fieldFailures]
  | cons ks rest ih =>
    intro acc hnd hfresh
    obtain ⟨k, s⟩ := ks
    have hnd2 : (rest.map Prod.fst).Nodup := by
      simpa using hnd.of_cons
    cases hv : validate s (propGet v k) ctx with
    | none =>
      simp only [mappedGo, hv]
      rw [ih acc hnd2 (fun t ht => hfresh t (List.mem_cons_of_mem _ ht))]
      simp [fieldFailures, hv]
    | some e =>
      simp only [mappedGo, hv, hA, Bool.false_eq_true, if_false]
      rw [setKey_not_mem _ _ _ (hfresh (k, s) (by simp))]
      have hfresh2 : ∀ t ∈ rest, t.1 ∉ (acc ++ [(k, e)]).map Prod.fst := by
        intro t ht
        simp only [List.map_append, List.mem_append]
        rintro (hin | hin)
        · exact hfresh t (List.mem_cons_of_mem _ ht) hin
        · simp only [List.map_cons, List.map_nil, List.mem_singleton] at hin
          have hk : k ∉ rest.map Prod.fst := by
            have hmap := hnd
            simp only [List.map_cons] at hmap
            exact (List.nodup_cons.mp hmap).1
          exact hk (hin ▸ List.mem_map_of_mem Prod.fst ht)
      rw [ih (acc ++ [(k, e)]) hnd2 hfresh2]
      simp [fieldFailures, hv]

theorem mappedGo_abort (v : Value) (ctx : VCtx) (hA : abortEarlyOf ctx = true) :
    ∀ fs : List (String × Schema),
      ((∀ ks ∈ fs, validate ks.2 (propGet v ks.1) ctx = none) → mappedGo v ctx fs [] = [])
      ∧ (∀ k s e,
          fs.find? (fun ks => (validate ks.2 (propGet v ks.1) ctx).isSome) = some (k, s) →
          validate s (propGet v k) ctx = some e →
          mappedGo v ctx fs [] = [(k, e)]) := by
  intro fs
  induction fs with
  | nil =>
    refine ⟨fun _ => by simp [mappedGo], fun k s e hfind _ => ?_⟩
    simp at hfind
  | cons ks rest ih =>
    obtain ⟨k0, s0⟩ := ks
    constructor
    · intro hall
      have h0 := hall (k0, s0) (by simp)
      simp only at h0
      simp only [mappedGo, h0]
      exact ih.1 (fun t ht => hall t (List.mem_cons_of_mem _ ht))
    · intro k s e hfind hval
      cases hv : validate s0 (propGet v k0) ctx with
      | none =>
        rw [List.find?_cons_of_neg _ (by simp [hv])] at hfind
        simp only [mappedGo, hv]
        exact ih.2 k s e hfind hval
      | some e0 =>
        rw [List.find?_cons_of_pos _ (by simp [hv])] at hfind
        simp only [Option.some.injEq, Prod.mk.injEq] at hfind
        obtain ⟨rfl, rfl⟩ := hfind
        rw [hv] at hval
        have he : e0 = e := by
          simpa using hval
        simp [mappedGo, hv, hA, setKey, he]

/-- C3: for a fixed-field Object schema on an object input, abort-early
validation (the default) returns a map with exactly one entry, keyed by
the first declared field whose child validation fails (and `undefined`
when no field fails); with `abortEarly: false` the result is the map of
all failing fields in declaration order, `undefined` when that map is
empty. -/
theorem mapped_validate_abort_early (cfg : Config) (fs : List (String × Schema))
    (kvs : List (String × Value)) (ctx : VCtx) (hnd : (fs.map Prod.fst).Nodup) :
    (abortEarlyOf ctx = true →
        ((∀ ks ∈ fs, validate ks.2 (propGet (.obj kvs) ks.1) ctx = none) →
          validate (.mappedObject cfg fs) (.obj kvs) ctx = none)
        ∧ (∀ k s e,
            fs.find? (fun ks => (validate ks.2 (propGet (.obj kvs) ks.1) ctx).isSome) = some (k, s) →
            validate s (propGet (.obj kvs) k) ctx = some e →
            validate (.mappedObject cfg fs) (.obj kvs) ctx = some (.emap [(k, e)])))
    ∧ (abortEarlyOf ctx = false →
        validate (.mappedObject cfg fs) (.obj kvs) ctx
          = if (fieldFailures (.obj kvs) ctx fs).isEmpty then none
            else some (.emap (fieldFailures (.obj kvs) ctx fs))) := by
  constructor
  · intro hA
    constructor
    · intro hall
      rw [validate_mapped_obj]
      simp [(mappedGo_abort (.obj kvs) ctx hA fs).1 hall]
    · intro k s e hfind hval
      rw [validate_mapped_obj]
      simp [(mappedGo_abort (.obj kvs) ctx hA fs).2 k s e hfind hval]
  · intro hA
    rw [validate_mapped_obj]
    rw [mappedGo_collect (.obj kvs) ctx hA fs [] hnd (by simp)]
    simp

/-- Witness for C3: with schema `{a: string, b: boolean}` and input
`{a: 1, b: 2}` (both fields failing), the default context reports only the
first failing field `a`, while `abortEarly: false` reports both fields. -/
theorem mapped_validate_abort_early_witness :
    validate (.mappedObject {} [("a", stringNode), ("b", booleanNode)])
        (.obj [("a", .num 1), ("b", .num 2)]) {}
      = some (.emap [("a", .leaf "Must be string")])
    ∧ validate (.mappedObject {} [("a", stringNode), ("b", booleanNode)])
        (.obj [("a", .num 1), ("b", .num 2)]) { abortEarly := some false }
      = some (.emap [("a", .leaf "Must be string"), ("b", .leaf "Must be boolean")]) := by
  constructor
  · have h := ((mapped_validate_abort_early {} [("a", stringNode), ("b", booleanNode)]
      [("a", .num 1), ("b", .num 2)] {} (by decide)).1 rfl).2
      "a" stringNode (.leaf "Must be string") ?hfind ?hval
    case hfind =>
      simp [List.find?, validate, stringNode, validateNullable, propGet, objLookup]
    case hval =>
      simp [validate, stringNode, validateNullable, propGet, objLookup, List.find?]
    exact h
  · have h := (mapped_validate_abort_early {} [("a", stringNode), ("b", booleanNode)]
      [("a", .num 1), ("b", .num 2)] { abortEarly := some false } (by decide)).2 rfl
    rw [h]
    simp [fieldFailures, validate, stringNode, booleanNode, validateNullable, propGet,
      objLookup, List.find?]

/-- C8 (counterexample): `doSetPrototype` guards a second call by the
truthiness of the previously stored prototype, not its presence; after
registering a falsy prototype (the empty string), a second call does not
throw — it succeeds and silently overwrites. -/
theorem doSetPrototype_second_call_cex :
    doSetPrototype (.str "") {} = .ok { setPrototype := .str "" }
    ∧ doSetPrototype (.str "") ({ setPrototype := .str "" } : BuilderState)
        = .ok { setPrototype := .str "" } :=
  ⟨rfl, rfl⟩

/-- C8 (amended): each one-time configuration method rejects a second call
on the same instance with its construction-time `Duplicate ...` error
(raised by the builder call itself, as an `Except.error`, never as a
validation result) — with the exception that `doSetPrototype` only rejects
the second call when the prototype registered first is truthy. -/
theorem builders_reject_second_call :
    (∀ s t, optional s = .ok t → optional t = .error "Duplicate optional() call")
    ∧ (∀ s t, nullable s = .ok t → nullable t = .error "Duplicate nullable() call")
    ∧ (∀ m msg s t m2 msg2, min m msg s = .ok t → min m2 msg2 t = .error "Duplicate min() call")
    ∧ (∀ m msg s t m2 msg2, max m msg s = .ok t → max m2 msg2 t = .error "Duplicate max() call")
    ∧ (∀ p msg s t p2 msg2,
        regex p msg s = .ok t → regex p2 msg2 t = .error "Duplicate regex() call")
    ∧ (∀ a msg s t a2 msg2,
        float a msg s = .ok t → float a2 msg2 t = .error "Duplicate float() call")
    ∧ (∀ b s t b2, doTrim b s = .ok t → doTrim b2 t = .error "Duplicate doTrim() call")
    ∧ (∀ c s t c2, doCase c s = .ok t → doCase c2 t = .error "Duplicate doTransformCase() call")
    ∧ (∀ r s t r2, doRound r s = .ok t → doRound r2 t = .error "Duplicate doRound() call")
    ∧ (∀ f s t f2, doCustom f s = .ok t → doCustom f2 t = .error "Duplicate doCustom() call")
    ∧ (∀ w s t w2,
        doSetWhenEmpty w s = .ok t → doSetWhenEmpty w2 t = .error "Duplicate doSetWhenEmpty() call")
    ∧ (∀ p s t p2, truthy p = true →
        doSetPrototype p s = .ok t → doSetPrototype p2 t = .error "Duplicate doPrototype() call") := by
  refine ⟨fun s t h => ?_, fun s t h => ?_, fun m msg s t m2 msg2 h => ?_,
    fun m msg s t m2 msg2 h => ?_, fun p msg s t p2 msg2 h => ?_,
    fun a msg s t a2 msg2 h => ?_, fun b s t b2 h => ?_, fun c s t c2 h => ?_,
    fun r s t r2 h => ?_, fun f s t f2 h => ?_, fun w s t w2 h => ?_,
    fun p s t p2 hp h => ?_⟩
  · simp only [optional] at h
    split at h
    · simp at h
    · injection h with h2
      subst h2
      simp [optional]
  · simp only [nullable] at h
    split at h
    · simp at h
    · injection h with h2
      subst h2
      simp [nullable]
  · simp only [min] at h
    split at h
    · simp at h
    · injection h with h2
      subst h2
      simp [min]
  · simp only [max] at h
    split at h
    · simp at h
    · injection h with h2
      subst h2
      simp [max]
  · simp only [regex] at h
    split at h
    · simp at h
    · injection h with h2
      subst h2
      simp [regex]
  · simp only [float] at h
    split at h
    · simp at h
    · injection h with h2
      subst h2
      simp [float]
  · simp only [doTrim] at h
    split at h
    · simp at h
    · injection h with h2
      subst h2
      simp [doTrim]
  · simp only [doCase] at h
    split at h
    · simp at h
    · injection h with h2
      subst h2
      simp [doCase]
  · simp only [doRound] at h
    split at h
    · simp at h
    · injection h with h2
      subst h2
      simp [doRound]
  · simp only [doCustom] at h
    split at h
    · simp at h
    · injection h with h2
      subst h2
      simp [doCustom]
  · simp only [doSetWhenEmpty] at h
    split at h
    · simp at h
    · injection h with h2
      subst h2
      simp [doSetWhenEmpty]
  · simp only [doSetPrototype] at h
    split at h
    · simp at h
    · injection h with h2
      subst h2
      simp [doSetPrototype, hp]

/-- Witness for the amended C8 theorem: a first `optional()` then a second
`optional()` throws, and after registering a truthy (object) prototype a
second `doSetPrototype` throws. -/
theorem builders_reject_second_call_witness :
    optional ({ isOptional := true } : BuilderState) = .error "Duplicate optional() call"
    ∧ doSetPrototype (.str "q") ({ setPrototype := .obj [] } : BuilderState)
        = .error "Duplicate doPrototype() call" := by
  constructor
  · exact builders_reject_second_call.1 {} { isOptional := true } rfl
  · exact builders_reject_second_call.2.2.2.2.2.2.2.2.2.2.2 (.obj []) {}
      { setPrototype := .obj [] } (.str "q") rfl rfl

end TOV
